import Mathlib

/-!
Shallow embedding of the SumBlock grid/match/cascade engine
(source: `src/types.ts` constants and the game component's state logic).

Randomness (`Math.random` in id/value generation, shuffle order, sample count)
is modelled by explicit parameters: a `fresh` function supplying the id and
value of each newly spawned tile per column, and a `count`/`shuffled` pair for
target generation.  React's `useEffect` dependency arrays are modelled by
passing the previous dependency values explicitly (an effect body runs only
when the dependencies changed).
-/

namespace SumBlock

/-- Game modes, from `types.ts`. -/
inductive GameMode where
  | CLASSIC
  | TIME
deriving DecidableEq

/-- Game statuses, from `types.ts`. -/
inductive GameStatus where
  | MENU
  | PLAYING
  | GAMEOVER
deriving DecidableEq

/-- A tile, from the `Block` interface in `types.ts`.  `row` is an integer
because the code meaningfully produces negative rows on overflow. -/
structure Block where
  id : String
  value : Nat
  row : Int
  col : Nat
deriving DecidableEq

def GRID_COLS : Nat := 6

def GRID_ROWS : Nat := 10

def INITIAL_ROWS : Nat := 4

def TIME_LIMIT : Int := 10

/-- The component's state cells, aggregated. -/
structure Session where
  status : GameStatus
  mode : GameMode
  blocks : List Block
  targetSum : Nat
  selectedIds : List String
  score : Nat
  timeLeft : Int
  isPaused : Bool
deriving DecidableEq

/-- `currentSum`: sum of the values of the live tiles whose id is selected
(`blocks.filter(b => selectedIds.includes(b.id)).reduce((acc, b) => acc + b.value, 0)`). -/
def currentSum (s : Session) : Nat :=
  (s.blocks.filter (fun b => s.selectedIds.contains b.id)).foldl (fun acc b => acc + b.value) 0

/-- `addRow`'s functional updater on the block list: reject with an overflow
signal if any tile already occupies row 0 (checked on the pre-shift state),
otherwise shift every row up by one and append one fresh tile per column at
the bottom row.  The second component is the overflow signal. -/
def addRow (fresh : Nat → String × Nat) (prev : List Block) : List Block × Bool :=
  if prev.any (fun b => b.row == 0) then (prev, true)
  else
    ((prev.map fun b => { b with row := b.row - 1 }) ++
      ((List.range GRID_COLS).map fun col =>
        { id := (fresh col).1, value := (fresh col).2,
          row := (GRID_ROWS : Int) - 1, col := col }),
      false)

/-- `addRow` at the session level: on overflow the updater leaves the blocks
unchanged and sets the status to GAMEOVER. -/
def addRowS (fresh : Nat → String × Nat) (s : Session) : Session :=
  { s with
    blocks := (addRow fresh s.blocks).1
    status := if (addRow fresh s.blocks).2 then GameStatus.GAMEOVER else s.status }

/-- The comparator `(a, b) => b.row - a.row` orders tiles by descending row. -/
def rowGe (a b : Block) : Prop := b.row ≤ a.row

instance : DecidableRel rowGe := fun a b => inferInstanceAs (Decidable (b.row ≤ a.row))

instance : IsTotal Block rowGe := ⟨fun a b => Int.le_total b.row a.row⟩

instance : IsTrans Block rowGe := ⟨fun _ _ _ h1 h2 => le_trans h2 h1⟩

/-- Stable sort of a column's tiles by descending row
(`.sort((a, b) => b.row - a.row)`; JS `Array.prototype.sort` is stable). -/
def sortRowDesc (l : List Block) : List Block := List.insertionSort rowGe l

/-- The `forEach((b, idx) => push(\x7b ...b, row: GRID_ROWS - 1 - idx \x7d))` loop:
reassign rows from the bottom of the grid upwards. -/
def assignRows (n : Nat) : List Block → List Block
  | [] => []
  | b :: l => { b with row := (GRID_ROWS : Int) - 1 - (n : Int) } :: assignRows (n + 1) l

/-- The match effect's compaction `setBlocks` updater: drop the removed ids,
then per column (in column order) sort survivors by descending row and pack
them against the bottom row. -/
def removeAndCompact (removedIds : List String) (prev : List Block) : List Block :=
  (List.range GRID_COLS).flatMap fun c =>
    assignRows 0 (sortRowDesc
      ((prev.filter fun b => !(removedIds.contains b.id)).filter fun b => b.col == c))

/-- The selection update inside `toggleBlock`. -/
def toggleSel (id : String) (sel : List String) : List String :=
  if sel.contains id then sel.filter (fun i => i != id) else sel ++ [id]

/-- `toggleBlock`: ignored unless status is PLAYING and the game is unpaused;
otherwise toggles the id in the selection. -/
def toggleBlock (id : String) (s : Session) : Session :=
  if s.status ≠ GameStatus.PLAYING ∨ s.isPaused = true then s
  else { s with selectedIds := toggleSel id s.selectedIds }

/-- `generateTarget`: 10 on an empty grid, else the clamped sum of the first
`count` tiles of a shuffle of the grid.  `count` and `shuffled` stand for the
random draw `Math.floor(Math.random() * 3) + 2` and the shuffled copy. -/
def generateTarget (blocks : List Block) (count : Nat) (shuffled : List Block) : Nat :=
  if blocks.length = 0 then 10
  else max 10 (min ((shuffled.take count).foldl (fun acc b => acc + b.value) 0) 45)

/-- The match-resolver effect body: on `currentSum === targetSum && targetSum > 0`
award `targetSum * selectedIds.length`, compact the removed tiles out, clear the
selection, and in CLASSIC mode call `addRow` while in TIME mode reset the
countdown; on `currentSum > targetSum` clear the selection only. -/
def matchStep (fresh : Nat → String × Nat) (s : Session) : Session :=
  if currentSum s = s.targetSum ∧ 0 < s.targetSum then
    if s.mode = GameMode.CLASSIC then
      addRowS fresh
        { s with
          score := s.score + s.targetSum * s.selectedIds.length
          blocks := removeAndCompact s.selectedIds s.blocks
          selectedIds := [] }
    else
      { s with
        score := s.score + s.targetSum * s.selectedIds.length
        blocks := removeAndCompact s.selectedIds s.blocks
        selectedIds := []
        timeLeft := TIME_LIMIT }
  else if s.targetSum < currentSum s then
    { s with selectedIds := [] }
  else s

/-- The target-regeneration effect, with its dependency array
`[blocks.length, status]` made explicit: the body runs only when the tile
count or the status changed, and then regenerates the target when the game is
PLAYING on a non-empty grid. -/
def regenEffect (prevLen : Nat) (prevStatus : GameStatus) (count : Nat)
    (shuffled : List Block) (s : Session) : Session :=
  if s.blocks.length = prevLen ∧ s.status = prevStatus then s
  else if s.status = GameStatus.PLAYING ∧ 0 < s.blocks.length then
    { s with targetSum := generateTarget s.blocks count shuffled }
  else s

/-- One countdown tick of the TIME-mode interval: only active while PLAYING,
in TIME mode and unpaused; at `timeLeft <= 1` it attempts a row spawn and
resets the countdown, otherwise it decrements.  The boolean reports whether a
row spawn was attempted. -/
def timerTick (fresh : Nat → String × Nat) (s : Session) : Session × Bool :=
  if s.status = GameStatus.PLAYING ∧ s.mode = GameMode.TIME ∧ s.isPaused = false then
    if s.timeLeft ≤ 1 then
      ({ addRowS fresh s with timeLeft := TIME_LIMIT }, true)
    else ({ s with timeLeft := s.timeLeft - 1 }, false)
  else (s, false)

/-- Run `n` consecutive ticks with no intervening events, counting the row
spawn attempts. -/
def runTicks (fresh : Nat → String × Nat) : Nat → Session → Session × Nat
  | 0, s => (s, 0)
  | n + 1, s =>
    ((runTicks fresh n (timerTick fresh s).1).1,
      (if (timerTick fresh s).2 then 1 else 0) + (runTicks fresh n (timerTick fresh s).1).2)

/-- The game-over effect's check: `blocks.some(b => b.row < 0)`. -/
def hasOverflow (blocks : List Block) : Bool := blocks.any fun b => decide (b.row < 0)

/-! ### Helper lemmas -/

theorem contains_mem_iff (sel : List String) (x : String) :
    sel.contains x = true ↔ x ∈ sel := by
  simp

theorem contains_toggleSel_of_ne (id x : String) (sel : List String) (h : x ≠ id) :
    (toggleSel id sel).contains x = sel.contains x := by
  unfold toggleSel
  split
  · rcases hx : sel.contains x with _ | _
    · rw [Bool.eq_false_iff]
      intro hmem
      rw [contains_mem_iff, List.mem_filter] at hmem
      rw [Bool.eq_false_iff, Ne, contains_mem_iff] at hx
      exact hx hmem.1
    · rw [contains_mem_iff] at hx ⊢
      rw [List.mem_filter]
      exact ⟨hx, by simpa using h⟩
  · rcases hx : sel.contains x with _ | _
    · rw [Bool.eq_false_iff]
      intro hmem
      rw [contains_mem_iff, List.mem_append] at hmem
      rw [Bool.eq_false_iff, Ne, contains_mem_iff] at hx
      rcases hmem with hm | hm
      · exact hx hm
      · exact h (by simpa using hm)
    · rw [contains_mem_iff] at hx ⊢
      exact List.mem_append.mpr (Or.inl hx)

theorem toggleSel_toggleSel_of_not_mem (id : String) (sel : List String) (h : id ∉ sel) :
    toggleSel id (toggleSel id sel) = sel := by
  have h1 : sel.contains id = false := by
    rw [Bool.eq_false_iff, Ne, contains_mem_iff]; exact h
  have h2 : (sel ++ [id]).contains id = true := by
    rw [contains_mem_iff]; exact List.mem_append.mpr (Or.inr (List.mem_singleton.mpr rfl))
  unfold toggleSel
  rw [h1]
  simp only [Bool.false_eq_true, if_false, h2, if_true]
  rw [List.filter_append]
  have h3 : sel.filter (fun i => i != id) = sel :=
    List.filter_eq_self.mpr fun x hx => by
      simpa using ne_of_mem_of_not_mem hx h
  have h4 : [id].filter (fun i => i != id) = [] := by simp
  rw [h3, h4, List.append_nil]

theorem toggleSel_toggleSel_perm (id : String) (sel : List String) (hnd : sel.Nodup) :
    (toggleSel id (toggleSel id sel)).Perm sel := by
  by_cases h : id ∈ sel
  · have h1 : sel.contains id = true := contains_mem_iff sel id |>.mpr h
    have h2 : (sel.filter (fun i => i != id)).contains id = false := by
      rw [Bool.eq_false_iff, Ne, contains_mem_iff, List.mem_filter]
      rintro ⟨-, hbad⟩
      simp at hbad
    unfold toggleSel
    rw [h1]
    simp only [if_true, h2, Bool.false_eq_true, if_false]
    refine (List.perm_append_singleton id _).trans ?_
    rw [← hnd.erase_eq_filter id]
    exact (List.perm_cons_erase h).symm
  · rw [toggleSel_toggleSel_of_not_mem id sel h]

/-! ### Claims -/

/-- C1: if any live tile occupies row 0, `addRow` leaves the grid unmodified,
reports overflow (status becomes GAMEOVER), and the overflow signal is
computed from the pre-shift state. -/
theorem claim_C1 (fresh : Nat → String × Nat) (s : Session)
    (h : ∃ b ∈ s.blocks, b.row = 0) :
    addRowS fresh s = { s with status := GameStatus.GAMEOVER } ∧
    addRow fresh s.blocks = (s.blocks, true) ∧
    ∀ l : List Block, (addRow fresh l).2 = l.any fun b => b.row == 0 := by
  obtain ⟨b, hb, hb0⟩ := h
  have hany : (s.blocks.any fun b => b.row == 0) = true :=
    List.any_eq_true.mpr ⟨b, hb, by simp [hb0]⟩
  refine ⟨?_, ?_, ?_⟩
  · simp [addRowS, addRow, hany]
  · simp [addRow, hany]
  · intro l
    unfold addRow
    split <;> simp_all

/-- Witness for C1 at a concrete one-tile grid with a tile at row 0. -/
theorem claim_C1_witness :
    (∃ b ∈ (⟨GameStatus.PLAYING, GameMode.CLASSIC, [⟨"a", 1, 0, 0⟩], 10, [], 0, 10,
        false⟩ : Session).blocks, b.row = 0) ∧
    addRowS (fun _ => ("n", 1))
        ⟨GameStatus.PLAYING, GameMode.CLASSIC, [⟨"a", 1, 0, 0⟩], 10, [], 0, 10, false⟩ =
      { (⟨GameStatus.PLAYING, GameMode.CLASSIC, [⟨"a", 1, 0, 0⟩], 10, [], 0, 10,
          false⟩ : Session) with status := GameStatus.GAMEOVER } :=
  ⟨by decide, (claim_C1 (fun _ => ("n", 1)) _ (by decide)).1⟩

/-- C4: on overshoot (`currentSum > targetSum`) the step clears the selection
and changes nothing else. -/
theorem claim_C4 (fresh : Nat → String × Nat) (s : Session)
    (h : s.targetSum < currentSum s) :
    matchStep fresh s = { s with selectedIds := [] } := by
  have hne : ¬(currentSum s = s.targetSum ∧ 0 < s.targetSum) := by
    rintro ⟨h1, -⟩; omega
  rw [matchStep, if_neg hne, if_pos h]

/-- Witness for C4: target 5, a selected tile worth 9. -/
theorem claim_C4_witness :
    ((⟨GameStatus.PLAYING, GameMode.CLASSIC, [⟨"a", 9, 9, 0⟩], 5, ["a"], 0, 10,
        false⟩ : Session).targetSum <
      currentSum ⟨GameStatus.PLAYING, GameMode.CLASSIC, [⟨"a", 9, 9, 0⟩], 5, ["a"], 0, 10,
        false⟩) ∧
    matchStep (fun _ => ("n", 1))
        ⟨GameStatus.PLAYING, GameMode.CLASSIC, [⟨"a", 9, 9, 0⟩], 5, ["a"], 0, 10, false⟩ =
      { (⟨GameStatus.PLAYING, GameMode.CLASSIC, [⟨"a", 9, 9, 0⟩], 5, ["a"], 0, 10,
          false⟩ : Session) with selectedIds := [] } :=
  ⟨by decide, claim_C4 (fun _ => ("n", 1)) _ (by decide)⟩

/-- C5 counterexample: on the one-tile grid `[⟨a, 9, 9, 0⟩]` (value 9 ∈ [1,9])
with sample count k = 2, the code returns 10, yet no sample of 2 distinct
tiles of that grid exists, so the result is not the clamped sum of a k-tile
sample as the claim states. -/
theorem claim_C5_counterexample :
    generateTarget [⟨"a", 9, 9, 0⟩] 2 [⟨"a", 9, 9, 0⟩] = 10 ∧
    ¬∃ sample : List Block, sample.Sublist [⟨"a", 9, 9, 0⟩] ∧ sample.length = 2 := by
  refine ⟨by decide, ?_⟩
  rintro ⟨sample, hsub, hlen⟩
  have h2 := hsub.length_le
  rw [hlen] at h2
  simp at h2

/-- C5 (amended): `generateTarget` returns 10 on the empty tile list; on a
non-empty list it returns the clamped sum of a without-replacement sample of
`min k |T|` tiles; the result always lies in [10, 45]. -/
theorem claim_C5_amended (blocks : List Block) (count : Nat) (shuffled : List Block)
    (hperm : shuffled.Perm blocks) :
    (blocks = [] → generateTarget blocks count shuffled = 10) ∧
    (blocks ≠ [] → ∃ sample : List Block, sample.Sublist shuffled ∧
        sample.length = min count blocks.length ∧
        generateTarget blocks count shuffled =
          max 10 (min (sample.foldl (fun acc b => acc + b.value) 0) 45)) ∧
    10 ≤ generateTarget blocks count shuffled ∧ generateTarget blocks count shuffled ≤ 45 := by
  refine ⟨?_, ?_, ?_, ?_⟩
  · intro h; simp [generateTarget, h]
  · intro h
    refine ⟨shuffled.take count, List.take_sublist count shuffled, ?_, ?_⟩
    · rw [List.length_take, hperm.length_eq]
    · have hlen : ¬blocks.length = 0 := by
        simpa [List.length_eq_zero] using h
      simp [generateTarget, hlen]
  · unfold generateTarget
    split
    · exact le_refl 10
    · exact le_max_left _ _
  · unfold generateTarget
    split
    · norm_num
    · exact max_le (by norm_num) (min_le_right _ _)

/-- Witness for C5 (amended) on a concrete two-tile grid. -/
theorem claim_C5_witness :
    ([(⟨"a", 2, 9, 0⟩ : Block), ⟨"b", 3, 9, 1⟩] : List Block).Perm
        [⟨"a", 2, 9, 0⟩, ⟨"b", 3, 9, 1⟩] ∧
    10 ≤ generateTarget [⟨"a", 2, 9, 0⟩, ⟨"b", 3, 9, 1⟩] 2 [⟨"a", 2, 9, 0⟩, ⟨"b", 3, 9, 1⟩] ∧
    generateTarget [⟨"a", 2, 9, 0⟩, ⟨"b", 3, 9, 1⟩] 2 [⟨"a", 2, 9, 0⟩, ⟨"b", 3, 9, 1⟩] ≤ 45 :=
  ⟨List.Perm.refl _, (claim_C5_amended _ 2 _ (List.Perm.refl _)).2.2⟩

/-- C6 counterexample: toggling a tile id that is not live in the grid, while
PLAYING and unpaused, is not ignored: it appends the dead id to the selection,
changing the session state. -/
theorem claim_C6_counterexample :
    (∀ b ∈ (⟨GameStatus.PLAYING, GameMode.CLASSIC, [⟨"a", 5, 9, 0⟩], 10, [], 0, 10,
        false⟩ : Session).blocks, b.id ≠ "x") ∧
    toggleBlock "x"
        ⟨GameStatus.PLAYING, GameMode.CLASSIC, [⟨"a", 5, 9, 0⟩], 10, [], 0, 10, false⟩ ≠
      ⟨GameStatus.PLAYING, GameMode.CLASSIC, [⟨"a", 5, 9, 0⟩], 10, [], 0, 10, false⟩ ∧
    (toggleBlock "x"
        ⟨GameStatus.PLAYING, GameMode.CLASSIC, [⟨"a", 5, 9, 0⟩], 10, [], 0, 10,
          false⟩).selectedIds = ["x"] := by
  decide

/-- C6 (amended): toggling while paused or while the status is not PLAYING is
silently ignored and leaves the whole session unchanged; a toggle never
changes anything but the selection; toggling an id with no live tile still
toggles that id in the selection but leaves the current sum unchanged. -/
theorem claim_C6_amended (s : Session) (id : String) :
    ((s.status ≠ GameStatus.PLAYING ∨ s.isPaused = true) → toggleBlock id s = s) ∧
    toggleBlock id s = { s with selectedIds := (toggleBlock id s).selectedIds } ∧
    ((∀ b ∈ s.blocks, b.id ≠ id) → currentSum (toggleBlock id s) = currentSum s) := by
  refine ⟨?_, ?_, ?_⟩
  · intro h; rw [toggleBlock, if_pos h]
  · unfold toggleBlock
    split <;> rfl
  · intro h
    unfold toggleBlock
    split
    · rfl
    · show currentSum { s with selectedIds := toggleSel id s.selectedIds } = currentSum s
      unfold currentSum
      have hfil : s.blocks.filter (fun b => (toggleSel id s.selectedIds).contains b.id) =
          s.blocks.filter fun b => s.selectedIds.contains b.id :=
        List.filter_congr fun b hb => contains_toggleSel_of_ne id b.id s.selectedIds (h b hb)
      simp only []
      rw [hfil]

/-- Witness for C6 (amended): a paused session ignores the toggle entirely. -/
theorem claim_C6_witness :
    ((⟨GameStatus.PLAYING, GameMode.CLASSIC, [⟨"a", 5, 9, 0⟩], 10, [], 0, 10,
        true⟩ : Session).status ≠ GameStatus.PLAYING ∨
      (⟨GameStatus.PLAYING, GameMode.CLASSIC, [⟨"a", 5, 9, 0⟩], 10, [], 0, 10,
        true⟩ : Session).isPaused = true) ∧
    toggleBlock "a"
        ⟨GameStatus.PLAYING, GameMode.CLASSIC, [⟨"a", 5, 9, 0⟩], 10, [], 0, 10, true⟩ =
      ⟨GameStatus.PLAYING, GameMode.CLASSIC, [⟨"a", 5, 9, 0⟩], 10, [], 0, 10, true⟩ :=
  ⟨by decide, (claim_C6_amended _ "a").1 (by decide)⟩

/-- C9: while PLAYING and unpaused, toggling a tile id twice returns the
selection to its original contents (a permutation in general, the very same
list when the id was not selected, and in particular the empty selection
stays empty), while every other session field is untouched. -/
theorem claim_C9 (s : Session) (id : String)
    (h1 : s.status = GameStatus.PLAYING) (h2 : s.isPaused = false)
    (h3 : s.selectedIds.Nodup) :
    (toggleBlock id (toggleBlock id s)).selectedIds.Perm s.selectedIds ∧
    (toggleBlock id (toggleBlock id s)).blocks = s.blocks ∧
    (toggleBlock id (toggleBlock id s)).score = s.score ∧
    (toggleBlock id (toggleBlock id s)).targetSum = s.targetSum ∧
    (toggleBlock id (toggleBlock id s)).status = s.status ∧
    (id ∉ s.selectedIds → toggleBlock id (toggleBlock id s) = s) ∧
    toggleSel id (toggleSel id []) = ([] : List String) := by
  have hguard : ¬(s.status ≠ GameStatus.PLAYING ∨ s.isPaused = true) := by
    simp [h1, h2]
  have e1 : toggleBlock id s = { s with selectedIds := toggleSel id s.selectedIds } := by
    rw [toggleBlock, if_neg hguard]
  have hguard2 :
      ¬(({ s with selectedIds := toggleSel id s.selectedIds } : Session).status ≠
          GameStatus.PLAYING ∨
        ({ s with selectedIds := toggleSel id s.selectedIds } : Session).isPaused = true) := by
    simp [h1, h2]
  have e2 : toggleBlock id (toggleBlock id s) =
      { s with selectedIds := toggleSel id (toggleSel id s.selectedIds) } := by
    rw [e1, toggleBlock, if_neg hguard2]
  refine ⟨?_, ?_, ?_, ?_, ?_, ?_, ?_⟩
  · rw [e2]; exact toggleSel_toggleSel_perm id s.selectedIds h3
  · rw [e2]
  · rw [e2]
  · rw [e2]
  · rw [e2]
  · intro hmem
    rw [e2, toggleSel_toggleSel_of_not_mem id s.selectedIds hmem]
  · exact toggleSel_toggleSel_of_not_mem id [] (by simp)

/-- Witness for C9 on a concrete selection containing the toggled id. -/
theorem claim_C9_witness :
    ((⟨GameStatus.PLAYING, GameMode.CLASSIC, [⟨"a", 5, 9, 0⟩, ⟨"b", 4, 9, 1⟩], 10,
        ["a", "b"], 0, 10, false⟩ : Session).status = GameStatus.PLAYING) ∧
    ((⟨GameStatus.PLAYING, GameMode.CLASSIC, [⟨"a", 5, 9, 0⟩, ⟨"b", 4, 9, 1⟩], 10,
        ["a", "b"], 0, 10, false⟩ : Session).isPaused = false) ∧
    (["a", "b"] : List String).Nodup ∧
    (toggleBlock "a" (toggleBlock "a"
        ⟨GameStatus.PLAYING, GameMode.CLASSIC, [⟨"a", 5, 9, 0⟩, ⟨"b", 4, 9, 1⟩], 10,
          ["a", "b"], 0, 10, false⟩)).selectedIds.Perm ["a", "b"] :=
  ⟨by decide, by decide, by decide,
    (claim_C9 ⟨GameStatus.PLAYING, GameMode.CLASSIC, [⟨"a", 5, 9, 0⟩, ⟨"b", 4, 9, 1⟩], 10,
      ["a", "b"], 0, 10, false⟩ "a" rfl rfl (by decide)).1⟩

/-- A full bottom row of six value-5 tiles, all selected, target 30: a CLASSIC
match that removes six tiles (used as a concrete scenario below). -/
def sessA : Session :=
  ⟨GameStatus.PLAYING, GameMode.CLASSIC,
    [⟨"a", 5, 9, 0⟩, ⟨"b", 5, 9, 1⟩, ⟨"c", 5, 9, 2⟩,
     ⟨"d", 5, 9, 3⟩, ⟨"e", 5, 9, 4⟩, ⟨"f", 5, 9, 5⟩],
    30, ["a", "b", "c", "d", "e", "f"], 0, 10, false⟩

/-- A deterministic id/value draw for the spawned row of the scenario. -/
def freshA : Nat → String × Nat := fun c => (["u", "v", "w", "x", "y", "z"].getD c "u", 7)

/-- C3: the match fires exactly when `currentSum = targetSum > 0`; it then
adds `targetSum * |selection|` to the score, removes the selected tiles with
compaction, clears the selection, and requests a row spawn in CLASSIC mode or
resets the countdown (with no spawn) in TIME mode; in every other case score,
grid, target and status are untouched, and with `targetSum = 0` and
`currentSum = 0` the step changes nothing at all. -/
theorem claim_C3 (fresh : Nat → String × Nat) (s : Session) :
    ((currentSum s = s.targetSum ∧ 0 < s.targetSum) →
      (matchStep fresh s).score = s.score + s.targetSum * s.selectedIds.length ∧
      (matchStep fresh s).selectedIds = [] ∧
      (s.mode = GameMode.CLASSIC →
        (matchStep fresh s).blocks = (addRow fresh (removeAndCompact s.selectedIds s.blocks)).1 ∧
        (matchStep fresh s).timeLeft = s.timeLeft) ∧
      (s.mode = GameMode.TIME →
        (matchStep fresh s).blocks = removeAndCompact s.selectedIds s.blocks ∧
        (matchStep fresh s).timeLeft = TIME_LIMIT ∧
        (matchStep fresh s).status = s.status)) ∧
    (¬(currentSum s = s.targetSum ∧ 0 < s.targetSum) →
      (matchStep fresh s).score = s.score ∧
      (matchStep fresh s).blocks = s.blocks ∧
      (matchStep fresh s).targetSum = s.targetSum ∧
      (matchStep fresh s).status = s.status) ∧
    (s.targetSum = 0 → currentSum s = 0 → matchStep fresh s = s) := by
  refine ⟨?_, ?_, ?_⟩
  · intro h
    rw [matchStep, if_pos h]
    by_cases hm : s.mode = GameMode.CLASSIC
    · rw [if_pos hm]
      refine ⟨rfl, rfl, fun _ => ⟨rfl, rfl⟩, fun hT => ?_⟩
      rw [hm] at hT
      exact GameMode.noConfusion hT
    · rw [if_neg hm]
      exact ⟨rfl, rfl, fun hC => absurd hC hm, fun _ => ⟨rfl, rfl, rfl⟩⟩
  · intro h
    rw [matchStep, if_neg h]
    split
    · exact ⟨rfl, rfl, rfl, rfl⟩
    · exact ⟨rfl, rfl, rfl, rfl⟩
  · intro h0 hc
    have hne : ¬(currentSum s = s.targetSum ∧ 0 < s.targetSum) := by
      rintro ⟨-, hp⟩; omega
    have hlt : ¬(s.targetSum < currentSum s) := by omega
    rw [matchStep, if_neg hne, if_neg hlt]

/-- Witness for C3 on the concrete CLASSIC match scenario. -/
theorem claim_C3_witness :
    (currentSum sessA = sessA.targetSum ∧ 0 < sessA.targetSum) ∧
    (matchStep freshA sessA).score =
      sessA.score + sessA.targetSum * sessA.selectedIds.length ∧
    (matchStep freshA sessA).selectedIds = [] :=
  ⟨by decide, ((claim_C3 freshA sessA).1 (by decide)).1, ((claim_C3 freshA sessA).1 (by decide)).2.1⟩

/-- C7 counterexample: in the concrete CLASSIC match scenario the six removed
tiles are replaced by six spawned tiles, the tile count is unchanged, so the
target-regeneration effect (whose dependencies are the tile count and the
status) does not run: the target stays 30 even though the grid changed and a
regeneration from the new grid would have produced 14 for this draw. -/
theorem claim_C7_counterexample :
    (matchStep freshA sessA).blocks.length = sessA.blocks.length ∧
    (matchStep freshA sessA).status = GameStatus.PLAYING ∧
    (matchStep freshA sessA).blocks ≠ sessA.blocks ∧
    regenEffect sessA.blocks.length sessA.status 2 (matchStep freshA sessA).blocks
        (matchStep freshA sessA) = matchStep freshA sessA ∧
    (matchStep freshA sessA).targetSum = 30 ∧
    generateTarget (matchStep freshA sessA).blocks 2 (matchStep freshA sessA).blocks = 14 := by
  decide

/-- C7 (amended): the target is regenerated from the current grid whenever the
grid's tile count (or the status) changes while PLAYING on a non-empty grid;
when the tile count and status both match their previous values — as after a
CLASSIC match whose removed-tile count equals the spawned-tile count — the
effect does not run and the target is left as it was. -/
theorem claim_C7_amended (prevLen : Nat) (prevStatus : GameStatus) (count : Nat)
    (shuffled : List Block) (s : Session) :
    (s.blocks.length = prevLen → s.status = prevStatus →
      regenEffect prevLen prevStatus count shuffled s = s) ∧
    (¬(s.blocks.length = prevLen ∧ s.status = prevStatus) →
      s.status = GameStatus.PLAYING → 0 < s.blocks.length →
      regenEffect prevLen prevStatus count shuffled s =
        { s with targetSum := generateTarget s.blocks count shuffled }) := by
  constructor
  · intro h1 h2
    rw [regenEffect, if_pos ⟨h1, h2⟩]
  · intro h h1 h2
    rw [regenEffect, if_neg h, if_pos ⟨h1, h2⟩]

/-- Witness for C7 (amended): a spawn that does change the tile count (0 → 6)
regenerates the target from the new grid. -/
theorem claim_C7_witness :
    ¬((matchStep freshA sessA).blocks.length = 0 ∧
        (matchStep freshA sessA).status = GameStatus.MENU) ∧
    (matchStep freshA sessA).status = GameStatus.PLAYING ∧
    0 < (matchStep freshA sessA).blocks.length ∧
    regenEffect 0 GameStatus.MENU 2 (matchStep freshA sessA).blocks (matchStep freshA sessA) =
      { matchStep freshA sessA with
        targetSum := generateTarget (matchStep freshA sessA).blocks 2
          (matchStep freshA sessA).blocks } :=
  ⟨by decide, by decide, by decide,
    (claim_C7_amended 0 GameStatus.MENU 2 (matchStep freshA sessA).blocks
      (matchStep freshA sessA)).2 (by decide) (by decide) (by decide)⟩

theorem timerTick_dec (fresh : Nat → String × Nat) (t : Session)
    (h1 : t.status = GameStatus.PLAYING) (h2 : t.mode = GameMode.TIME)
    (h3 : t.isPaused = false) (h4 : 1 < t.timeLeft) :
    timerTick fresh t = ({ t with timeLeft := t.timeLeft - 1 }, false) := by
  rw [timerTick, if_pos ⟨h1, h2, h3⟩, if_neg (by omega)]

theorem timerTick_spawn (fresh : Nat → String × Nat) (t : Session)
    (h1 : t.status = GameStatus.PLAYING) (h2 : t.mode = GameMode.TIME)
    (h3 : t.isPaused = false) (h4 : t.timeLeft ≤ 1) :
    timerTick fresh t = ({ addRowS fresh t with timeLeft := TIME_LIMIT }, true) := by
  rw [timerTick, if_pos ⟨h1, h2, h3⟩, if_pos h4]

theorem runTicks_to_spawn (fresh : Nat → String × Nat) : ∀ (n : Nat) (t : Session),
    t.status = GameStatus.PLAYING → t.mode = GameMode.TIME → t.isPaused = false →
    t.timeLeft = (n : Int) + 1 →
    runTicks fresh (n + 1) t =
      ({ addRowS fresh { t with timeLeft := 1 } with timeLeft := TIME_LIMIT }, 1)
  | 0, t, h1, h2, h3, h4 => by
    have h4' : t.timeLeft = 1 := by rw [h4]; norm_num
    have he : ({ t with timeLeft := 1 } : Session) = t := by
      cases t
      simp_all
    have e := timerTick_spawn fresh t h1 h2 h3 (le_of_eq h4')
    rw [runTicks, e, he]
    rfl
  | n + 1, t, h1, h2, h3, h4 => by
    have h4' : 1 < t.timeLeft := by rw [h4]; push_cast; omega
    have e := timerTick_dec fresh t h1 h2 h3 h4'
    have hleft : ({ t with timeLeft := t.timeLeft - 1 } : Session).timeLeft = (n : Int) + 1 := by
      show t.timeLeft - 1 = (n : Int) + 1
      rw [h4]; push_cast; omega
    have ih := runTicks_to_spawn fresh n { t with timeLeft := t.timeLeft - 1 } h1 h2 h3 hleft
    rw [runTicks, e]
    simp only [Bool.false_eq_true, if_false]
    rw [ih]
    rfl

/-- C8: in TIME mode while PLAYING and unpaused, a tick with `timeLeft > 1`
decrements the countdown and spawns nothing; starting from `timeLeft = 10`,
ten consecutive ticks perform exactly one row-spawn attempt and leave
`timeLeft` back at 10; and a tick never drives `timeLeft` negative. -/
theorem claim_C8 (fresh : Nat → String × Nat) (s : Session)
    (h1 : s.status = GameStatus.PLAYING) (h2 : s.mode = GameMode.TIME)
    (h3 : s.isPaused = false) (h4 : s.timeLeft = 10) :
    (runTicks fresh 10 s).2 = 1 ∧
    (runTicks fresh 10 s).1.timeLeft = 10 ∧
    (∀ t : Session, t.status = GameStatus.PLAYING → t.mode = GameMode.TIME →
      t.isPaused = false → 1 < t.timeLeft →
      (timerTick fresh t).1.timeLeft = t.timeLeft - 1 ∧ (timerTick fresh t).2 = false) ∧
    (∀ t : Session, 0 ≤ t.timeLeft → 0 ≤ (timerTick fresh t).1.timeLeft) := by
  have e := runTicks_to_spawn fresh 9 s h1 h2 h3 (by rw [h4]; norm_num)
  refine ⟨?_, ?_, ?_, ?_⟩
  · rw [show (10 : Nat) = 9 + 1 from rfl, e]
  · rw [show (10 : Nat) = 9 + 1 from rfl, e]
    rfl
  · intro t ht1 ht2 ht3 ht4
    rw [timerTick_dec fresh t ht1 ht2 ht3 ht4]
    exact ⟨rfl, rfl⟩
  · intro t ht
    unfold timerTick
    split
    · split
      · show (0 : Int) ≤ TIME_LIMIT
        norm_num [TIME_LIMIT]
      · show (0 : Int) ≤ t.timeLeft - 1
        omega
    · exact ht

/-- Witness for C8 on a concrete TIME-mode session. -/
theorem claim_C8_witness :
    ((⟨GameStatus.PLAYING, GameMode.TIME, [⟨"a", 5, 9, 0⟩], 10, [], 0, 10,
        false⟩ : Session).status = GameStatus.PLAYING) ∧
    ((⟨GameStatus.PLAYING, GameMode.TIME, [⟨"a", 5, 9, 0⟩], 10, [], 0, 10,
        false⟩ : Session).mode = GameMode.TIME) ∧
    ((⟨GameStatus.PLAYING, GameMode.TIME, [⟨"a", 5, 9, 0⟩], 10, [], 0, 10,
        false⟩ : Session).isPaused = false) ∧
    ((⟨GameStatus.PLAYING, GameMode.TIME, [⟨"a", 5, 9, 0⟩], 10, [], 0, 10,
        false⟩ : Session).timeLeft = 10) ∧
    (runTicks freshA 10
        ⟨GameStatus.PLAYING, GameMode.TIME, [⟨"a", 5, 9, 0⟩], 10, [], 0, 10, false⟩).2 = 1 ∧
    (runTicks freshA 10
        ⟨GameStatus.PLAYING, GameMode.TIME, [⟨"a", 5, 9, 0⟩], 10, [], 0, 10,
          false⟩).1.timeLeft = 10 :=
  ⟨rfl, rfl, rfl, rfl,
    (claim_C8 freshA _ rfl rfl rfl rfl).1,
    (claim_C8 freshA _ rfl rfl rfl rfl).2.1⟩

/-! ### Compaction structure lemmas -/

/-- The survivors of a removal: `prev.filter(b => !removedIds.includes(b.id))`. -/
def survivors (ids : List String) (prev : List Block) : List Block :=
  prev.filter fun b => !(ids.contains b.id)

/-- The survivors that sit in column `c`. -/
def colSurvivors (ids : List String) (prev : List Block) (c : Nat) : List Block :=
  (survivors ids prev).filter fun b => b.col == c

/-- Column `c`'s survivors sorted by descending row. -/
def colSorted (ids : List String) (prev : List Block) (c : Nat) : List Block :=
  sortRowDesc (colSurvivors ids prev c)

theorem removeAndCompact_eq (ids : List String) (prev : List Block) :
    removeAndCompact ids prev =
      (List.range GRID_COLS).flatMap fun c => assignRows 0 (colSorted ids prev c) := rfl

theorem assignRows_length (n : Nat) (l : List Block) : (assignRows n l).length = l.length := by
  induction l generalizing n with
  | nil => rfl
  | cons b t ih => simp [assignRows, ih]

theorem mem_assignRows (l : List Block) (n : Nat) (b' : Block) :
    b' ∈ assignRows n l ↔
      ∃ i, ∃ h : i < l.length,
        b' = { l.get ⟨i, h⟩ with row := (GRID_ROWS : Int) - 1 - ((n + i : Nat) : Int) } := by
  induction l generalizing n with
  | nil => simp [assignRows]
  | cons a t ih =>
    simp only [assignRows, List.mem_cons, ih]
    constructor
    · rintro (rfl | ⟨i, h, rfl⟩)
      · exact ⟨0, Nat.succ_pos _, by rw [Nat.add_zero]; rfl⟩
      · exact ⟨i + 1, Nat.succ_lt_succ h, by rw [show n + (i + 1) = n + 1 + i from by omega]; rfl⟩
    · rintro ⟨i, h, rfl⟩
      cases i with
      | zero => exact Or.inl (by rw [Nat.add_zero]; rfl)
      | succ i =>
        exact Or.inr ⟨i, Nat.lt_of_succ_lt_succ h,
          by rw [show n + (i + 1) = n + 1 + i from by omega]; rfl⟩

theorem countRowGt_get : ∀ (l : List Block), (l.Pairwise fun a b => b.row < a.row) →
    ∀ (i : Nat) (h : i < l.length),
      (l.filter fun x => decide ((l.get ⟨i, h⟩).row < x.row)).length = i
  | [], _, i, h => absurd h (Nat.not_lt_zero i)
  | a :: t, hs, 0, _ => by
    rcases List.pairwise_cons.mp hs with ⟨ha, -⟩
    show (List.filter (fun x => decide (a.row < x.row)) (a :: t)).length = 0
    rw [List.filter_cons]
    have h1 : decide (a.row < a.row) = false := by simp
    rw [h1]
    simp only [Bool.false_eq_true, if_false]
    have h2 : t.filter (fun x => decide (a.row < x.row)) = [] := by
      rw [List.filter_eq_nil_iff]
      intro x hx
      simp only [decide_eq_true_eq]
      have := ha x hx
      omega
    rw [h2]
    rfl
  | a :: t, hs, i + 1, h => by
    rcases List.pairwise_cons.mp hs with ⟨ha, ht⟩
    have h' : i < t.length := Nat.lt_of_succ_lt_succ h
    show (List.filter (fun x => decide ((t.get ⟨i, h'⟩).row < x.row)) (a :: t)).length = i + 1
    rw [List.filter_cons]
    have h1 : decide ((t.get ⟨i, h'⟩).row < a.row) = true := by
      simp only [decide_eq_true_eq]
      exact ha _ (List.get_mem t i h')
    rw [h1]
    simp only [if_true, List.length_cons]
    rw [countRowGt_get t ht i h']

theorem pairwise_rowLt_of_sorted (l : List Block)
    (hs : l.Pairwise rowGe) (hn : (l.map fun b => b.row).Nodup) :
    l.Pairwise fun a b => b.row < a.row := by
  rw [List.Nodup, List.pairwise_map] at hn
  exact (hs.and hn).imp fun h => lt_of_le_of_ne h.1 (Ne.symm h.2)

theorem rows_nodup_of_pairs_nodup : ∀ (l : List Block) (c : Nat),
    ((l.map fun b => (b.row, b.col)).Nodup) → (∀ b ∈ l, b.col = c) →
    (l.map fun b => b.row).Nodup
  | [], _, _, _ => List.nodup_nil
  | a :: t, c, hp, hc => by
    rw [List.map_cons, List.nodup_cons] at hp ⊢
    refine ⟨?_, rows_nodup_of_pairs_nodup t c hp.2
      fun b hb => hc b (List.mem_cons_of_mem a hb)⟩
    intro hmem
    rw [List.mem_map] at hmem
    obtain ⟨b, hb, hrow⟩ := hmem
    apply hp.1
    rw [List.mem_map]
    refine ⟨b, hb, ?_⟩
    have hbc : b.col = a.col :=
      (hc b (List.mem_cons_of_mem a hb)).trans (hc a (List.mem_cons_self a t)).symm
    simp [Prod.ext_iff, hrow, hbc]

theorem length_le_GRID_ROWS (l : List Block)
    (hn : (l.map fun b => b.row).Nodup)
    (hr : ∀ b ∈ l, 0 ≤ b.row ∧ b.row < (GRID_ROWS : Int)) :
    l.length ≤ GRID_ROWS := by
  have h1 : (l.map fun b => b.row).toFinset ⊆ Finset.Icc (0 : Int) 9 := by
    intro x hx
    rw [List.mem_toFinset, List.mem_map] at hx
    obtain ⟨b, hb, rfl⟩ := hx
    have hbr := hr b hb
    have hG : (GRID_ROWS : Int) = 10 := rfl
    rw [Finset.mem_Icc]
    omega
  have h2 := Finset.card_le_card h1
  rw [List.toFinset_card_of_nodup hn, List.length_map] at h2
  have h3 : (Finset.Icc (0 : Int) 9).card = 10 := by
    rw [Int.card_Icc]; decide
  rw [h3] at h2
  exact h2

theorem colSurvivors_sublist (ids : List String) (prev : List Block) (c : Nat) :
    (colSurvivors ids prev c).Sublist prev :=
  (List.filter_sublist (survivors ids prev)).trans (List.filter_sublist prev)

theorem colSurvivors_col (ids : List String) (prev : List Block) (c : Nat) (b : Block)
    (hb : b ∈ colSurvivors ids prev c) : b.col = c := by
  have := (List.mem_filter.mp hb).2
  simpa using this

theorem colSorted_perm (ids : List String) (prev : List Block) (c : Nat) :
    (colSorted ids prev c).Perm (colSurvivors ids prev c) :=
  List.perm_insertionSort rowGe (colSurvivors ids prev c)

theorem colSurvivors_rows_nodup (ids : List String) (prev : List Block) (c : Nat)
    (hcell : (prev.map fun b => (b.row, b.col)).Nodup) :
    ((colSurvivors ids prev c).map fun b => b.row).Nodup :=
  rows_nodup_of_pairs_nodup (colSurvivors ids prev c) c
    (hcell.sublist ((colSurvivors_sublist ids prev c).map _))
    (colSurvivors_col ids prev c)

theorem colSorted_rows_nodup (ids : List String) (prev : List Block) (c : Nat)
    (hcell : (prev.map fun b => (b.row, b.col)).Nodup) :
    ((colSorted ids prev c).map fun b => b.row).Nodup :=
  (((colSorted_perm ids prev c).map _).nodup_iff).mpr
    (colSurvivors_rows_nodup ids prev c hcell)

theorem colSorted_pairwise (ids : List String) (prev : List Block) (c : Nat)
    (hcell : (prev.map fun b => (b.row, b.col)).Nodup) :
    (colSorted ids prev c).Pairwise fun a b => b.row < a.row :=
  pairwise_rowLt_of_sorted (colSorted ids prev c)
    (List.sorted_insertionSort rowGe (colSurvivors ids prev c))
    (colSorted_rows_nodup ids prev c hcell)

theorem colSorted_index_count (ids : List String) (prev : List Block) (c : Nat)
    (hcell : (prev.map fun b => (b.row, b.col)).Nodup)
    (i : Nat) (h : i < (colSorted ids prev c).length) :
    ((survivors ids prev).filter fun x =>
        x.col == c && decide (((colSorted ids prev c).get ⟨i, h⟩).row < x.row)).length = i := by
  have h1 := countRowGt_get (colSorted ids prev c) (colSorted_pairwise ids prev c hcell) i h
  have h2 : ((colSurvivors ids prev c).filter fun x =>
      decide (((colSorted ids prev c).get ⟨i, h⟩).row < x.row)).length
      = ((colSorted ids prev c).filter fun x =>
        decide (((colSorted ids prev c).get ⟨i, h⟩).row < x.row)).length :=
    ((colSorted_perm ids prev c).filter _).length_eq.symm
  have h3 : (colSurvivors ids prev c).filter
        (fun x => decide (((colSorted ids prev c).get ⟨i, h⟩).row < x.row))
      = (survivors ids prev).filter fun x =>
        x.col == c && decide (((colSorted ids prev c).get ⟨i, h⟩).row < x.row) := by
    rw [colSurvivors, List.filter_filter]
    apply List.filter_congr
    intro x _
    exact Bool.and_comm _ _
  rw [← h3, h2, h1]

theorem sum_map_add (L : List Nat) (f g : Nat → Nat) :
    (L.map fun c => f c + g c).sum = (L.map f).sum + (L.map g).sum := by
  induction L with
  | nil => rfl
  | cons c t ih =>
    simp only [List.map_cons, List.sum_cons, ih]
    omega

theorem sum_indicator_zero (x : Nat) : ∀ (L : List Nat), x ∉ L →
    (L.map fun c => if x == c then 1 else 0).sum = 0
  | [], _ => rfl
  | c :: t, h => by
    rw [List.map_cons, List.sum_cons]
    have hx : (x == c) = false := by
      rw [beq_eq_false_iff_ne]
      intro e
      exact h (by rw [e]; exact List.mem_cons_self c t)
    rw [hx]
    simp only [Bool.false_eq_true, if_false, Nat.zero_add]
    exact sum_indicator_zero x t fun hm => h (List.mem_cons_of_mem c hm)

theorem sum_indicator_one (x : Nat) : ∀ (L : List Nat), L.Nodup → x ∈ L →
    (L.map fun c => if x == c then 1 else 0).sum = 1
  | [], _, hm => absurd hm (List.not_mem_nil x)
  | c :: t, hnd, hm => by
    rw [List.map_cons, List.sum_cons]
    rw [List.nodup_cons] at hnd
    rcases List.mem_cons.mp hm with rfl | hm'
    · rw [beq_self_eq_true]
      simp only [if_true]
      rw [sum_indicator_zero x t hnd.1]
    · have hx : (x == c) = false := by
        rw [beq_eq_false_iff_ne]
        intro e
        rw [e] at hm'
        exact hnd.1 hm'
      rw [hx]
      simp only [Bool.false_eq_true, if_false, Nat.zero_add]
      exact sum_indicator_one x t hnd.2 hm'

theorem sum_filter_col : ∀ (l : List Block) (n : Nat), (∀ b ∈ l, b.col < n) →
    ((List.range n).map fun c => (l.filter fun b => b.col == c).length).sum = l.length
  | [], n, _ => by simp
  | b :: t, n, h => by
    have ht := sum_filter_col t n fun x hx => h x (List.mem_cons_of_mem b hx)
    have hb := h b (List.mem_cons_self b t)
    have hpt : ∀ c ∈ List.range n, ((b :: t).filter fun x => x.col == c).length
        = (if b.col == c then 1 else 0) + (t.filter fun x => x.col == c).length := by
      intro c _
      rw [List.filter_cons]
      by_cases hcase : (b.col == c) = true
      · rw [if_pos hcase, if_pos hcase, List.length_cons]
        omega
      · rw [if_neg hcase, if_neg hcase]
        omega
    rw [List.map_congr_left hpt,
      sum_map_add (List.range n) (fun c => if b.col == c then 1 else 0)
        (fun c => (t.filter fun x => x.col == c).length),
      sum_indicator_one b.col (List.range n) (List.nodup_range n) (List.mem_range.mpr hb),
      ht, List.length_cons]
    omega

/-- C2: `removeAndCompact` keeps exactly the tiles whose id is not in the
removal set (same count, and a tile characterisation), and a tile `b'` lies in
the result precisely when it is a surviving tile `b` of the input, with id,
value, and column unchanged, whose new row places it `k` cells above the
bottom row, where `k` is the number of surviving tiles of the same column that
were strictly below it.  This makes each column's rows contiguous from row
`GRID_ROWS - 1` upwards with the original vertical order preserved. -/
theorem claim_C2 (ids : List String) (prev : List Block)
    (hcol : ∀ b ∈ prev, b.col < GRID_COLS)
    (hcell : (prev.map fun b => (b.row, b.col)).Nodup) :
    (removeAndCompact ids prev).length = (survivors ids prev).length ∧
    ∀ b' : Block, b' ∈ removeAndCompact ids prev ↔
      ∃ b ∈ prev, ids.contains b.id = false ∧
        b'.id = b.id ∧ b'.value = b.value ∧ b'.col = b.col ∧
        b'.row = (GRID_ROWS : Int) - 1 -
          (((survivors ids prev).filter fun x =>
              x.col == b.col && decide (b.row < x.row)).length : Int) := by
  have hsurvcol : ∀ b ∈ survivors ids prev, b.col < GRID_COLS :=
    fun b hb => hcol b ((List.filter_sublist prev).subset hb)
  constructor
  · rw [removeAndCompact_eq, List.length_flatMap]
    have hpt : ∀ c ∈ List.range GRID_COLS,
        (List.length ∘ fun c => assignRows 0 (colSorted ids prev c)) c
          = ((survivors ids prev).filter fun b => b.col == c).length := fun c _ =>
      (assignRows_length 0 (colSorted ids prev c)).trans (colSorted_perm ids prev c).length_eq
    rw [List.map_congr_left hpt]
    exact sum_filter_col (survivors ids prev) GRID_COLS hsurvcol
  · intro b'
    rw [removeAndCompact_eq, List.mem_flatMap]
    constructor
    · rintro ⟨c, hc, hmem⟩
      rw [mem_assignRows] at hmem
      obtain ⟨i, h, rfl⟩ := hmem
      have hbmem : (colSorted ids prev c).get ⟨i, h⟩ ∈ colSurvivors ids prev c :=
        (colSorted_perm ids prev c).subset (List.get_mem _ i h)
      have hbcol : ((colSorted ids prev c).get ⟨i, h⟩).col = c :=
        colSurvivors_col ids prev c _ hbmem
      have hbsurv : (colSorted ids prev c).get ⟨i, h⟩ ∈ survivors ids prev :=
        (List.mem_filter.mp hbmem).1
      have hbprev : (colSorted ids prev c).get ⟨i, h⟩ ∈ prev :=
        (List.filter_sublist prev).subset hbsurv
      have hbids : ids.contains ((colSorted ids prev c).get ⟨i, h⟩).id = false := by
        have := (List.mem_filter.mp hbsurv).2
        simpa using this
      refine ⟨(colSorted ids prev c).get ⟨i, h⟩, hbprev, hbids, rfl, rfl, rfl, ?_⟩
      rw [hbcol, colSorted_index_count ids prev c hcell i h, Nat.zero_add]
    · rintro ⟨b, hbprev, hbids, hid, hval, hcol', hrow⟩
      have hbsurv : b ∈ survivors ids prev :=
        List.mem_filter.mpr ⟨hbprev, by rw [hbids]; rfl⟩
      have hbcolmem : b ∈ colSurvivors ids prev b.col :=
        List.mem_filter.mpr ⟨hbsurv, by rw [beq_self_eq_true]⟩
      have hbL : b ∈ colSorted ids prev b.col :=
        (colSorted_perm ids prev b.col).mem_iff.mpr hbcolmem
      obtain ⟨⟨i, h⟩, hget⟩ := List.mem_iff_get.mp hbL
      refine ⟨b.col, List.mem_range.mpr (hcol b hbprev), ?_⟩
      rw [mem_assignRows]
      refine ⟨i, h, ?_⟩
      have hcount := colSorted_index_count ids prev b.col hcell i h
      rw [hget] at hcount
      rw [hget, Nat.zero_add]
      obtain ⟨bid, bval, brow, bcol⟩ := b'
      have hid' : bid = b.id := hid
      have hval' : bval = b.value := hval
      have hcol'' : bcol = b.col := hcol'
      have hrow' : brow = (GRID_ROWS : Int) - 1 -
          (((survivors ids prev).filter fun x =>
              x.col == b.col && decide (b.row < x.row)).length : Int) := hrow
      rw [hid', hval', hcol'', hrow', hcount]

/-- Witness for C2 on a concrete three-tile grid with one removed id. -/
theorem claim_C2_witness :
    (∀ b ∈ ([⟨"a", 1, 8, 0⟩, ⟨"b", 2, 9, 0⟩, ⟨"c", 3, 7, 0⟩] : List Block), b.col < GRID_COLS) ∧
    (([⟨"a", 1, 8, 0⟩, ⟨"b", 2, 9, 0⟩, ⟨"c", 3, 7, 0⟩] : List Block).map
        fun b => (b.row, b.col)).Nodup ∧
    (removeAndCompact ["b"] [⟨"a", 1, 8, 0⟩, ⟨"b", 2, 9, 0⟩, ⟨"c", 3, 7, 0⟩]).length =
      (survivors ["b"] [⟨"a", 1, 8, 0⟩, ⟨"b", 2, 9, 0⟩, ⟨"c", 3, 7, 0⟩]).length :=
  ⟨by decide, by decide,
    (claim_C2 ["b"] [⟨"a", 1, 8, 0⟩, ⟨"b", 2, 9, 0⟩, ⟨"c", 3, 7, 0⟩]
      (by decide) (by decide)).1⟩

/-- C10: starting from a grid whose tiles all sit at rows in `[0, GRID_ROWS)`
with no two tiles sharing a cell, every tile produced by `removeAndCompact`
again has its row in `[0, GRID_ROWS)`; in particular the negative-row
game-over check cannot fire after a compaction alone. -/
theorem claim_C10 (ids : List String) (prev : List Block)
    (hrow : ∀ b ∈ prev, 0 ≤ b.row ∧ b.row < (GRID_ROWS : Int))
    (hcell : (prev.map fun b => (b.row, b.col)).Nodup) :
    (∀ b' ∈ removeAndCompact ids prev, 0 ≤ b'.row ∧ b'.row < (GRID_ROWS : Int)) ∧
    hasOverflow (removeAndCompact ids prev) = false := by
  have main : ∀ b' ∈ removeAndCompact ids prev, 0 ≤ b'.row ∧ b'.row < (GRID_ROWS : Int) := by
    intro b' hb'
    rw [removeAndCompact_eq, List.mem_flatMap] at hb'
    obtain ⟨c, -, hmem⟩ := hb'
    rw [mem_assignRows] at hmem
    obtain ⟨i, h, rfl⟩ := hmem
    have hlen : (colSorted ids prev c).length = (colSurvivors ids prev c).length :=
      (colSorted_perm ids prev c).length_eq
    have hmr : ∀ b ∈ colSurvivors ids prev c, 0 ≤ b.row ∧ b.row < (GRID_ROWS : Int) :=
      fun b hb => hrow b ((colSurvivors_sublist ids prev c).subset hb)
    have hbound := length_le_GRID_ROWS (colSurvivors ids prev c)
      (colSurvivors_rows_nodup ids prev c hcell) hmr
    rw [hlen] at h
    have h10 : i < 10 := lt_of_lt_of_le h hbound
    show 0 ≤ (GRID_ROWS : Int) - 1 - ((0 + i : Nat) : Int) ∧
      (GRID_ROWS : Int) - 1 - ((0 + i : Nat) : Int) < (GRID_ROWS : Int)
    have hG : (GRID_ROWS : Int) = 10 := rfl
    have hi : ((0 + i : Nat) : Int) ≤ 9 := by
      push_cast
      omega
    have hi0 : 0 ≤ ((0 + i : Nat) : Int) := by positivity
    omega
  refine ⟨main, ?_⟩
  rw [hasOverflow, List.any_eq_false]
  intro b hb
  have := (main b hb).1
  simp only [decide_eq_true_eq]
  omega

/-- Witness for C10 on a concrete two-column grid. -/
theorem claim_C10_witness :
    (∀ b ∈ ([⟨"a", 1, 8, 0⟩, ⟨"b", 2, 9, 0⟩, ⟨"c", 3, 9, 1⟩] : List Block),
      0 ≤ b.row ∧ b.row < (GRID_ROWS : Int)) ∧
    (([⟨"a", 1, 8, 0⟩, ⟨"b", 2, 9, 0⟩, ⟨"c", 3, 9, 1⟩] : List Block).map
        fun b => (b.row, b.col)).Nodup ∧
    hasOverflow (removeAndCompact ["a"] [⟨"a", 1, 8, 0⟩, ⟨"b", 2, 9, 0⟩, ⟨"c", 3, 9, 1⟩]) =
      false :=
  ⟨by decide, by decide,
    (claim_C10 ["a"] [⟨"a", 1, 8, 0⟩, ⟨"b", 2, 9, 0⟩, ⟨"c", 3, 9, 1⟩]
      (by decide) (by decide)).2⟩

end SumBlock
